import Mathlib

/-!
# Verification of the native-module rewriting plugin

Shallow embedding of `src/index.ts` of `vite-plugin-native-modules`.
Source text, file paths and file names are modelled as `List Char`
(`Text` below).  Filesystem, JSON-parsing and hashing primitives —
`fs.existsSync`, `fs.readdirSync`, `fs.readFileSync`, `JSON.parse` of a
`package.json` (its `type` and `main` fields) and the md5-hex digest from
`node:crypto` — are external capabilities of the host platform and are
modelled as fields of a capability record `SysCaps`.

Path primitives (`path.join`, `path.resolve`, `path.dirname`,
`path.basename`, `path.parse(..).root`) are modelled on POSIX paths whose
segments contain no `.`/`..` components and no trailing slashes, which is
the shape of every path the plugin manipulates; `join`/`resolve` therefore
perform no normalisation.
-/

set_option maxHeartbeats 1000000

abbrev Text := List Char

/-- Shorthand: string literal to `Text`. -/
def str (s : String) : Text := s.toList

/-- Scan for `pat` starting at every position of the second argument. -/
def infixAt (pat : Text) : Text → Bool
  | [] => List.isPrefixOf pat []
  | c :: rest => List.isPrefixOf pat (c :: rest) || infixAt pat rest

/-- `haystack.includes(needle)` (JS `String.prototype.includes`). -/
def includesT (t pat : Text) : Bool := infixAt pat t

/-- `t.endsWith(pat)`. -/
def endsWithT (t pat : Text) : Bool := List.isSuffixOf pat t

/-- `t.startsWith(pat)`. -/
def startsWithT (t pat : Text) : Bool := List.isPrefixOf pat t

/-- `path.join(a, b)` for normalised segments: `a ++ "/" ++ b`. -/
def pjoin (a b : Text) : Text := a ++ str "/" ++ b

/-- `path.join(...parts)` folded over a non-empty base. -/
def pjoinParts (base : Text) (parts : List Text) : Text :=
  parts.foldl pjoin base

/-- `path.dirname(t)` (POSIX, no trailing slash on input). -/
def dirnameT (t : Text) : Text :=
  match t.reverse.dropWhile (fun c => !(c == '/')) with
  | [] => str "."
  | _ :: [] => str "/"
  | _ :: rest => rest.reverse

/-- `path.basename(t)` (POSIX, no trailing slash on input). -/
def basenameT (t : Text) : Text :=
  (t.reverse.takeWhile (fun c => !(c == '/'))).reverse

/-- `path.parse(t).root` (POSIX). -/
def parseRootT (t : Text) : Text :=
  if startsWithT t (str "/") then str "/" else []

/-- `path.resolve(dir, rel)` for inputs without `.`/`..` segments. -/
def presolveT (dir rel : Text) : Text :=
  if startsWithT rel (str "/") then rel else pjoin dir rel

/-- `t.split("?")[0]`. -/
def takeUntilQm (t : Text) : Text := t.takeWhile (fun c => !(c == '?'))

/-- `t.toUpperCase()` (ASCII, enough for hex digests). -/
def toUpperT (t : Text) : Text := t.map Char.toUpper

/-- Index of the last `'.'`, i.e. JS `t.lastIndexOf "."` (`none` for -1). -/
def lastDotIdx (t : Text) : Option Nat :=
  ((t.enum.filter (fun p => p.2 == '.')).getLast?).map (fun p => p.1)

/-- JS `Map` / `Set` backing store: association list where `set` prepends
and `get` takes the first hit, giving last-write-wins semantics. -/
def alGet (l : List (Text × α)) (k : Text) : Option α :=
  (l.find? (fun p => p.1 == k)).map (fun p => p.2)

def alSet (l : List (Text × α)) (k : Text) (v : α) : List (Text × α) :=
  (k, v) :: l

/-- External capabilities: filesystem, JSON fields of manifests, hashing,
and the host process identity (`process.platform` / `process.arch`). -/
structure SysCaps where
  /-- `fs.existsSync` -/
  fsExists : Text → Bool
  /-- `fs.readdirSync`; `none` models a thrown error. -/
  readdir : Text → Option (List Text)
  /-- `fs.readFileSync` as raw bytes (paths handed in are existence-checked). -/
  readFile : Text → List Nat
  /-- parsed `type` field of the `package.json` at this path:
  `some true` for `"module"`, `some false` for `"commonjs"`, `none` for
  anything else (absent field, other value, or a JSON parse error). -/
  pkgType : Text → Option Bool
  /-- parsed `main` field of the `package.json` at this path, `none` when
  absent or the JSON does not parse. -/
  pkgMain : Text → Option Text
  /-- md5 digest of the exact bytes, as a lowercase hex string. -/
  md5hex : List Nat → Text
  platform : Text
  arch : Text

inductive FilenameFmt where
  | preserve
  | hashOnly
deriving DecidableEq, Repr

structure PackageConfig where
  pkg : Text
  fileNames : List Text
deriving DecidableEq, Repr

structure PluginOptions where
  forced : Option Bool := none
  additionalNativeFiles : List PackageConfig := []
  filenameFormat : Option FilenameFmt := none
deriving DecidableEq, Repr

/-- `generateHashedFilename` of the source. -/
def generateHashedFilename (opts : PluginOptions) (originalFilename hashv : Text) : Text :=
  let lastDot := lastDotIdx originalFilename
  let extension : Text :=
    match lastDot with
    | some i => if 0 < i then originalFilename.drop i else []
    | none => []
  if opts.filenameFormat == some FilenameFmt.hashOnly then
    toUpperT hashv ++ extension
  else
    match lastDot with
    | some i =>
      if 0 < i then
        originalFilename.take i ++ str "-" ++ toUpperT hashv ++ extension
      else originalFilename ++ str "-" ++ toUpperT hashv
    | none => originalFilename ++ str "-" ++ toUpperT hashv

/-- The 8-character content digest used everywhere in the source:
`crypto.createHash("md5").update(content).digest("hex").slice(0, 8)`. -/
def contentHash (caps : SysCaps) (bytes : List Nat) : Text :=
  (caps.md5hex bytes).take 8

/-- `NativeFileInfo` of the source. -/
structure NativeFileInfo where
  content : List Nat
  hashedFilename : Text
  originalPath : Text
deriving DecidableEq, Repr

/-- The two module-level maps `nativeFiles` and `hashedFilenameToPath`. -/
structure Registry where
  nativeFiles : List (Text × NativeFileInfo)
  hashedToPath : List (Text × Text)
deriving DecidableEq, Repr

def Registry.empty : Registry := ⟨[], []⟩

structure GOCOut where
  info : NativeFileInfo
  reg : Registry
  /-- number of `fs.readFileSync` calls performed (0 or 1). -/
  reads : Nat
deriving DecidableEq, Repr

/-- The memoised lookup-or-create step shared verbatim by `processNodeFile`,
Pattern 5, Pattern 6/6b, Pattern 7, Pattern 8 and `resolveId`:
check `nativeFiles`, otherwise read the bytes, hash them, derive the hashed
filename from the pattern-specific `filename` argument, and record both the
forward and the reverse mapping. -/
def getOrCreate (caps : SysCaps) (opts : PluginOptions) (reg : Registry)
    (p filename : Text) : GOCOut :=
  match alGet reg.nativeFiles p with
  | some info => ⟨info, reg, 0⟩
  | none =>
    let content := caps.readFile p
    let hash := contentHash caps content
    let hashedFilename := generateHashedFilename opts filename hash
    let info : NativeFileInfo := ⟨content, hashedFilename, p⟩
    ⟨info, ⟨alSet reg.nativeFiles p info, alSet reg.hashedToPath hashedFilename p⟩, 1⟩

/-- Full output name of a file's bytes, as the source composes it. -/
def outputName (caps : SysCaps) (opts : PluginOptions) (filename : Text)
    (bytes : List Nat) : Text :=
  generateHashedFilename opts filename (contentHash caps bytes)

/-! ## Loader-idiom resolvers -/

/-- Directory `directory/prebuilds/<platform>-<arch>` probed first by
`resolveNodeGypBuild`. -/
def prebuildsDirOf (caps : SysCaps) (directory : Text) : Text :=
  pjoin (pjoin directory (str "prebuilds")) (caps.platform ++ str "-" ++ caps.arch)

/-- Legacy `directory/build/Release` fallback directory. -/
def buildReleaseDirOf (directory : Text) : Text :=
  pjoin (pjoin directory (str "build")) (str "Release")

/-- The `prebuilds/` block of `resolveNodeGypBuild`; `none` falls through to
the legacy directory (including when `readdirSync` throws, which the source
catches). -/
def tryPrebuilds (caps : SysCaps) (directory : Text) : Option Text :=
  let prebuildsDir := prebuildsDirOf caps directory
  if caps.fsExists prebuildsDir then
    match caps.readdir prebuildsDir with
    | none => none
    | some files =>
      match files.filter (fun f => endsWithT f (str ".node")) with
      | [] => none
      | f0 :: rest =>
        let napiFile := (f0 :: rest).find? (fun f => includesT f (str "napi"))
        let selectedFile := napiFile.getD f0
        let fullPath := pjoin prebuildsDir selectedFile
        if caps.fsExists fullPath then some fullPath else none
  else none

/-- The `build/Release` block of `resolveNodeGypBuild`. -/
def tryBuildRelease (caps : SysCaps) (directory : Text) : Option Text :=
  let buildDir := buildReleaseDirOf directory
  if caps.fsExists buildDir then
    match caps.readdir buildDir with
    | none => none
    | some files =>
      match files.filter (fun f => endsWithT f (str ".node")) with
      | [] => none
      | f0 :: _ =>
        let fullPath := pjoin buildDir f0
        if caps.fsExists fullPath then some fullPath else none
  else none

/-- `resolveNodeGypBuild` of the source. -/
def resolveNodeGypBuild (caps : SysCaps) (directory : Text) : Option Text :=
  match tryPrebuilds caps directory with
  | some p => some p
  | none => tryBuildRelease caps directory

/-- Loop body of `findPackageRoot`; fuel bounds the walk up the directory
tree (each step strictly shortens the path, so `|dir|+1` steps suffice). -/
def findPackageRootLoop (caps : SysCaps) : Nat → Text → Text → Text
  | 0, _, startDir => startDir
  | fuel + 1, dir, startDir =>
    if caps.fsExists (pjoin dir (str "package.json")) ||
       caps.fsExists (pjoin dir (str "node_modules")) then dir
    else
      let prev := dir
      let d2 := dirnameT dir
      if d2 == prev || d2 == str "." || d2 == str "/" then startDir
      else findPackageRootLoop caps fuel d2 startDir

/-- `findPackageRoot` of the source. -/
def findPackageRoot (caps : SysCaps) (startDir : Text) : Text :=
  findPackageRootLoop caps (startDir.length + 1) startDir startDir

/-- `resolveBindings` of the source. -/
def resolveBindings (caps : SysCaps) (directory moduleName : Text) : Option Text :=
  let nodeFileName :=
    if endsWithT moduleName (str ".node") then moduleName
    else moduleName ++ str ".node"
  let packageRoot := findPackageRoot caps directory
  let searchPaths : List Text :=
    [ pjoinParts packageRoot [str "build", str "Release", nodeFileName]
    , pjoinParts packageRoot [str "build", str "Debug", nodeFileName]
    , pjoinParts packageRoot [str "out", str "Release", nodeFileName]
    , pjoinParts packageRoot [str "out", str "Debug", nodeFileName]
    , pjoinParts packageRoot [str "build", str "default", nodeFileName]
    , pjoinParts packageRoot [str "compiled", nodeFileName]
    , pjoin packageRoot nodeFileName ]
  searchPaths.find? (fun p => caps.fsExists p)

/-- One `node_modules/<packageName>` probe of `resolveNpmPackageNodeFile`:
manifest `main` ending in `.node`, then `index.node`, then the first
`.node` file listed directly inside the package directory. -/
def npmPackageHit (caps : SysCaps) (packageDir : Text) : Option Text :=
  let viaMain : Option Text :=
    let packageJsonPath := pjoin packageDir (str "package.json")
    if caps.fsExists packageJsonPath then
      match caps.pkgMain packageJsonPath with
      | some mainv =>
        if endsWithT mainv (str ".node") then
          let mainPath := pjoin packageDir mainv
          if caps.fsExists mainPath then some mainPath else none
        else none
      | none => none
    else none
  match viaMain with
  | some r => some r
  | none =>
    let indexNodePath := pjoin packageDir (str "index.node")
    if caps.fsExists indexNodePath then some indexNodePath
    else
      match caps.readdir packageDir with
      | some files =>
        (files.find? (fun f => endsWithT f (str ".node"))).map (pjoin packageDir)
      | none => none

/-- Loop of `resolveNpmPackageNodeFile`, walking up looking for
`node_modules` (fuel as in `findPackageRootLoop`). -/
def resolveNpmLoop (caps : SysCaps) (packageName : Text) :
    Nat → Text → Text → Option Text
  | 0, _, _ => none
  | fuel + 1, currentDir, root =>
    if currentDir != root && currentDir != dirnameT currentDir then
      let nodeModulesDir := pjoin currentDir (str "node_modules")
      let hit : Option Text :=
        if caps.fsExists nodeModulesDir then
          let packageDir := pjoin nodeModulesDir packageName
          if caps.fsExists packageDir then npmPackageHit caps packageDir
          else none
        else none
      match hit with
      | some r => some r
      | none => resolveNpmLoop caps packageName fuel (dirnameT currentDir) root
    else none

/-- `resolveNpmPackageNodeFile` of the source. -/
def resolveNpmPackageNodeFile (caps : SysCaps) (packageName fromDir : Text) :
    Option Text :=
  resolveNpmLoop caps packageName (fromDir.length + 1) fromDir (parseRootT fromDir)

/-- `shouldProcessFile` of the source. -/
def shouldProcessFile (opts : PluginOptions) (filePath currentFileId : Text) : Bool :=
  endsWithT filePath (str ".node") ||
  opts.additionalNativeFiles.any (fun pkgConfig =>
    includesT currentFileId (str "node_modules/" ++ pkgConfig.pkg) &&
    pkgConfig.fileNames.any (fun fileName =>
      endsWithT filePath fileName || includesT filePath (str "/" ++ fileName)))

/-! ## Module-type detection -/

/-- `package.json` walk of `detectModuleType` (the `while` loop). -/
def pkgTypeWalk (caps : SysCaps) : Nat → Text → Text → Option Bool
  | 0, _, _ => none
  | fuel + 1, dir, root =>
    if dir != root && dir != dirnameT dir then
      let packageJsonPath := pjoin dir (str "package.json")
      let hit : Option Bool :=
        if caps.fsExists packageJsonPath then caps.pkgType packageJsonPath
        else none
      match hit with
      | some b => some b
      | none => pkgTypeWalk caps fuel (dirnameT dir) root
    else none

/-- Raw-text heuristics of `detectModuleType` (run only when a non-empty
`code` argument is supplied, mirroring JS truthiness of `if (code)`). -/
def lexicalFormat (code : Text) : Option Bool :=
  if code.isEmpty then none
  else if includesT code (str "import ") || includesT code (str "export ") ||
          includesT code (str "import.meta") then some true
  else if includesT code (str "require(") || includesT code (str "module.exports") ||
          includesT code (str "exports.") then some false
  else none

/-- `detectModuleType` of the source: suffix convention, then raw-text
heuristics, then the `package.json` walk, defaulting to CommonJS. -/
def detectModuleType (caps : SysCaps) (fileId : Text) (code : Option Text) : Bool :=
  if endsWithT fileId (str ".mjs") || endsWithT fileId (str ".mts") then true
  else if endsWithT fileId (str ".cjs") || endsWithT fileId (str ".cts") then false
  else
    let lex : Option Bool :=
      match code with
      | some c => lexicalFormat c
      | none => none
    match lex with
    | some b => b
    | none =>
      match pkgTypeWalk caps (fileId.length + 1) (dirnameT fileId) (parseRootT fileId) with
      | some b => b
      | none => false

/-! ## The ESTree fragment consumed by the walker

Constructors cover exactly the node shapes the source inspects
(`Literal` is split into string and numeric literals so that the
`typeof value === "string"` checks become structural).  The
`ObjectExpression` form of a bindings argument and `TemplateLiteral`
arguments are not modelled; omitting a node kind only shrinks the space
of representable inputs.  `jexportDecl` stands for any of the three
`Export*Declaration` kinds, which the walker treats identically.
Child lists use a dedicated mutual inductive `JastList` so that structural
recursion (and hence kernel evaluation) works. -/

inductive JSpec where
  | jdefault (localName : Text)
  | jnamed (importedName localName : Text)
deriving DecidableEq

mutual
inductive Jast where
  | jprogram (body : JastList)
  | jexprStmt (nstart nstop : Nat) (e : Jast)
  | jident (nstart nstop : Nat) (nm : Text)
  | jstrLit (nstart nstop : Nat) (v : Text)
  | jnumLit (nstart nstop : Nat) (v : Int)
  | jmetaProp (nstart nstop : Nat) (meta prop : Text)
  | jcall (nstart nstop : Nat) (callee : Jast) (args : JastList)
  | jmember (nstart nstop : Nat) (obj prop : Jast)
  | jvarDecl (nstart nstop : Nat) (decls : JastList)
  | jdeclarator (nstart nstop : Nat) (idn : Jast) (initv : Option Jast)
  | jimport (nstart nstop : Nat) (specs : List JSpec) (src : Text)
  | jexportDecl (nstart nstop : Nat) (body : JastList)

inductive JastList where
  | nil
  | cons (hd : Jast) (tl : JastList)
end

/-- Plain-list view of a child list. -/
def JastList.toList : JastList → List Jast
  | .nil => []
  | .cons n l => n :: l.toList

/-- Child-list literal from a plain list. -/
def jl : List Jast → JastList
  | [] => .nil
  | n :: l => .cons n (jl l)

mutual
/-- Node count (weight) of a tree; the walk visits each node once. -/
def jsize : Jast → Nat
  | .jprogram body => 1 + jsizeL body
  | .jexprStmt _ _ ex => 1 + jsize ex
  | .jident _ _ _ => 1
  | .jstrLit _ _ _ => 1
  | .jnumLit _ _ _ => 1
  | .jmetaProp _ _ _ _ => 1
  | .jcall _ _ callee args => 1 + jsize callee + jsizeL args
  | .jmember _ _ obj prop => 1 + jsize obj + jsize prop
  | .jvarDecl _ _ decls => 1 + jsizeL decls
  | .jdeclarator _ _ idn initv =>
    1 + jsize idn + (match initv with | some i => jsize i | none => 0)
  | .jimport _ _ _ _ => 1
  | .jexportDecl _ _ body => 1 + jsizeL body

def jsizeL : JastList → Nat
  | .nil => 0
  | .cons n l => jsize n + jsizeL l
end

/-- A pending text edit (`replacements` entry of the source). -/
structure Repl where
  rstart : Nat
  rstop : Nat
  value : Text
deriving DecidableEq, Repr

/-- All mutable per-file state of the `transform` closure.  The
`*ImportNodes` lists keep only the `(start, end)` spans: the source
distinguishes `ImportDeclaration` from `VariableDeclarator` nodes there but
emits the identical empty-string replacement for both. -/
structure WalkSt where
  createRequireLocalName : Option Text
  customRequireVars : List Text
  nodeGypBuildVars : List Text
  bindingsVars : List Text
  nodeGypBuildImportNodes : List (Nat × Nat)
  nodeGypBuildUsageCount : Nat
  bindingsImportNodes : List (Nat × Nat)
  bindingsUsageCount : Nat
  directoryVars : List (Text × Text)
  pathModuleVars : List Text
  fileURLToPathVars : List Text
  isESModule : Bool
  hasCreateRequireImport : Bool
  replacements : List Repl
  modified : Bool
  reg : Registry
deriving DecidableEq

/-- `require` or a tracked custom require function. -/
def isRequireish (st : WalkSt) (nm : Text) : Bool :=
  nm == str "require" || st.customRequireVars.contains nm

/-- `isFileURLToPathPattern` of the source (both the `MetaProperty` shape
and the legacy nested-`MemberExpression` shape). -/
def isFileURLToPathArg (st : WalkSt) (n : Jast) : Bool :=
  match n with
  | .jcall _ _ (.jident _ _ cn) (.cons arg .nil) =>
    st.fileURLToPathVars.contains cn &&
    (match arg with
     | .jmember _ _ (.jmetaProp _ _ m p) (.jident _ _ u) =>
       m == str "import" && p == str "meta" && u == str "url"
     | .jmember _ _ (.jmember _ _ (.jident _ _ i1) (.jident _ _ i2)) (.jident _ _ u) =>
       i1 == str "import" && i2 == str "meta" && u == str "url"
     | _ => false)
  | _ => false

/-- The `path.join`/`path.resolve` static-argument evaluation, duplicated
verbatim in the source inside `resolveDirectoryFromCall` and
`resolveDirArgument`; embedded once. -/
def resolveJoinArgs (st : WalkSt) (id : Text) (args : List Jast) : Option Text :=
  match args with
  | [] => none
  | firstArg :: restArgs =>
    let base? : Option (Text × List Jast) :=
      match firstArg with
      | .jident _ _ nm =>
        if nm == str "__dirname" then some (dirnameT id, restArgs)
        else
          match alGet st.directoryVars nm with
          | some d => some (d, restArgs)
          | none => none
      | .jstrLit _ _ _ => some (dirnameT id, firstArg :: restArgs)
      | _ => none
    match base? with
    | none => none
    | some (baseDir, rest) =>
      let step : Option (List Text) → Jast → Option (List Text) := fun acc a =>
        match acc with
        | none => none
        | some parts =>
          match a with
          | .jstrLit _ _ v => some (parts ++ [v])
          | .jident _ _ nm =>
            match alGet st.directoryVars nm with
            | some d => some (parts ++ [d])
            | none => none
          | _ => none
      match rest.foldl step (some []) with
      | some parts => some (pjoinParts baseDir parts)
      | none => none

/-- `resolveDirectoryFromCall` of the source. -/
def resolveDirectoryFromCall (st : WalkSt) (id : Text) (callee : Jast)
    (args : List Jast) : Option Text :=
  match callee with
  | .jmember _ _ (.jident _ _ onm) (.jident _ _ mname) =>
    if st.pathModuleVars.contains onm || onm == str "path" then
      if mname == str "dirname" then
        match args with
        | [arg] =>
          if isFileURLToPathArg st arg then some (dirnameT id)
          else
            match arg with
            | .jident _ _ nm =>
              match alGet st.directoryVars nm with
              | some baseDir => some (dirnameT baseDir)
              | none => none
            | _ => none
        | _ => none
      else if mname == str "resolve" || mname == str "join" then
        resolveJoinArgs st id args
      else none
    else none
  | _ => none

/-- `resolveDirArgument` of the source. -/
def resolveDirArgument (st : WalkSt) (id : Text) (arg? : Option Jast) : Option Text :=
  match arg? with
  | none => none
  | some arg =>
    match arg with
    | .jident _ _ nm =>
      if nm == str "__dirname" then some (dirnameT id)
      else alGet st.directoryVars nm
    | .jstrLit _ _ v => some (presolveT (dirnameT id) v)
    | .jcall _ _ callee cargs =>
      match callee with
      | .jmember _ _ (.jident _ _ onm) (.jident _ _ pnm) =>
        match (if onm == str "require" && pnm == str "resolve" then
                 match cargs.toList with
                 | [.jstrLit _ _ v] => if v == str "./" then some (dirnameT id) else none
                 | _ => none
               else none) with
        | some r => some r
        | none =>
          if (st.pathModuleVars.contains onm || onm == str "path") &&
             (pnm == str "join" || pnm == str "resolve") then
            resolveJoinArgs st id cargs.toList
          else none
      | _ => none
    | _ => none

/-- `processNodeFile` of the source: memoised registration plus replacement
of the whole call expression; bumps `nodeGypBuildUsageCount`
unconditionally, exactly as the source does. -/
def processNodeFileM (caps : SysCaps) (opts : PluginOptions) (nodeFilePath : Text)
    (cs ce : Nat) (st : WalkSt) : WalkSt :=
  let g := getOrCreate caps opts st.reg nodeFilePath (basenameT nodeFilePath)
  let funcName := st.createRequireLocalName.getD (str "createRequire")
  let replacementCode :=
    if st.isESModule then
      funcName ++ str "(import.meta.url)(\"./" ++ g.info.hashedFilename ++ str "\")"
    else
      str "require(\"./" ++ g.info.hashedFilename ++ str "\")"
  { st with reg := g.reg,
            replacements := st.replacements ++ [⟨cs, ce, replacementCode⟩],
            modified := true,
            nodeGypBuildUsageCount := st.nodeGypBuildUsageCount + 1 }

/-- The shared memoise-and-replace-a-string-literal step of Patterns 5,
6/6b and 7 (`dq = true` gives the `"./name"` form, `dq = false` the
`'name'` form of Pattern 6). -/
def rewriteLiteral (caps : SysCaps) (opts : PluginOptions) (p filename : Text)
    (ls le : Nat) (dq : Bool) (st : WalkSt) : WalkSt :=
  let g := getOrCreate caps opts st.reg p filename
  let value :=
    if dq then str "\"./" ++ g.info.hashedFilename ++ str "\""
    else str "'" ++ g.info.hashedFilename ++ str "'"
  { st with reg := g.reg,
            replacements := st.replacements ++ [⟨ls, le, value⟩],
            modified := true }

/-- Does `callee` have the shape `require('<pkgName>')` /
`customRequire('<pkgName>')`? -/
def calleeIsRequireOf (st : WalkSt) (callee : Jast) (pkgName : Text) : Bool :=
  match callee with
  | .jcall _ _ (.jident _ _ cn) (.cons (.jstrLit _ _ v) .nil) =>
    isRequireish st cn && v == pkgName
  | _ => false

/-- Argument extraction of Patterns 3/4 (the `ObjectExpression` variant is
not modelled, see the note on `Jast`). -/
def bindingsModuleName (args : List Jast) : Option Text :=
  match args with
  | [.jstrLit _ _ v] => some v
  | _ => none

/-- Patterns 1–5: the `else if` chain over a `CallExpression`. -/
def callChain (caps : SysCaps) (opts : PluginOptions) (id : Text) (s e : Nat)
    (callee : Jast) (args : List Jast) (st : WalkSt) : WalkSt :=
  if calleeIsRequireOf st callee (str "node-gyp-build") then
    match resolveDirArgument st id args.head? with
    | some directory =>
      match resolveNodeGypBuild caps directory with
      | some nodeFilePath => processNodeFileM caps opts nodeFilePath s e st
      | none => st
    | none => st
  else if (match callee with
           | .jident _ _ nm => st.nodeGypBuildVars.contains nm
           | _ => false) then
    match resolveDirArgument st id args.head? with
    | some directory =>
      match resolveNodeGypBuild caps directory with
      | some nodeFilePath => processNodeFileM caps opts nodeFilePath s e st
      | none => st
    | none => st
  else if calleeIsRequireOf st callee (str "bindings") && args.length == 1 then
    match bindingsModuleName args with
    | some moduleName =>
      match resolveBindings caps (dirnameT id) moduleName with
      | some nodeFilePath =>
        let st1 := processNodeFileM caps opts nodeFilePath s e st
        { st1 with bindingsUsageCount := st1.bindingsUsageCount + 1 }
      | none => st
    | none => st
  else if (match callee with
           | .jident _ _ nm => st.bindingsVars.contains nm
           | _ => false) && args.length == 1 then
    match bindingsModuleName args with
    | some moduleName =>
      match resolveBindings caps (dirnameT id) moduleName with
      | some nodeFilePath =>
        let st1 := processNodeFileM caps opts nodeFilePath s e st
        { st1 with bindingsUsageCount := st1.bindingsUsageCount + 1 }
      | none => st
    | none => st
  else
    match args with
    | [.jstrLit ls le v] =>
      if shouldProcessFile opts v id then
        let absolutePath := presolveT (dirnameT id) v
        if caps.fsExists absolutePath then
          rewriteLiteral caps opts absolutePath (basenameT v) ls le true st
        else st
      else st
    | _ => st

/-- Shared body of Patterns 6 and 6b (the `join(__dirname, …, 'x.node')`
literal rewrite; non-literal middle arguments are silently skipped, as in
the source). -/
def joinRewrite (caps : SysCaps) (opts : PluginOptions) (id : Text)
    (args : List Jast) (st : WalkSt) : WalkSt :=
  let baseDir? : Option Text :=
    match args.head? with
    | some (.jident _ _ nm) =>
      if nm == str "__dirname" then some (dirnameT id)
      else alGet st.directoryVars nm
    | _ => none
  match baseDir? with
  | none => st
  | some baseDir =>
    match args.getLast? with
    | some (.jstrLit ls le v) =>
      if endsWithT v (str ".node") then
        let middle := (args.drop 1).dropLast
        let parts := middle.foldl (fun acc a =>
          match a with
          | .jstrLit _ _ w => acc ++ [w]
          | _ => acc) ([] : List Text)
        let absolutePath := pjoinParts baseDir (parts ++ [v])
        if caps.fsExists absolutePath then
          rewriteLiteral caps opts absolutePath v ls le false st
        else st
      else st
    | _ => st

/-- Pattern 7: bare npm package `require` resolving to a `.node` file. -/
def npmRequireRewrite (caps : SysCaps) (opts : PluginOptions) (id : Text)
    (callee : Jast) (args : List Jast) (st : WalkSt) : WalkSt :=
  match callee, args with
  | .jident _ _ nm, [.jstrLit ls le v] =>
    if isRequireish st nm &&
       !(startsWithT v (str ".")) && !(startsWithT v (str "/")) &&
       !(startsWithT v (str "node:")) then
      match resolveNpmPackageNodeFile caps v (dirnameT id) with
      | some nodeFilePath =>
        rewriteLiteral caps opts nodeFilePath (basenameT nodeFilePath) ls le true st
      | none => st
    else st
  | _, _ => st

/-- All `CallExpression` handling: the 1–5 chain, then the independent
Pattern 6, 6b and 7 checks on the same node. -/
def handleCall (caps : SysCaps) (opts : PluginOptions) (id : Text) (s e : Nat)
    (callee : Jast) (args : List Jast) (st : WalkSt) : WalkSt :=
  let st1 := callChain caps opts id s e callee args st
  let st2 :=
    match callee with
    | .jmember _ _ (.jident _ _ onm) (.jident _ _ pnm) =>
      if (st1.pathModuleVars.contains onm || onm == str "path") &&
         (pnm == str "join" || pnm == str "resolve") && 2 ≤ args.length then
        joinRewrite caps opts id args st1
      else st1
    | _ => st1
  let st3 :=
    match callee with
    | .jident _ _ nm =>
      if nm == str "join" && 2 ≤ args.length then joinRewrite caps opts id args st2
      else st2
    | _ => st2
  npmRequireRewrite caps opts id callee args st3

/-- `ImportDeclaration` bookkeeping of the walker. -/
def handleImport (s e : Nat) (specs : List JSpec) (src : Text) (st : WalkSt) : WalkSt :=
  let stA :=
    if src == str "module" || src == str "node:module" then
      specs.foldl (fun acc sp =>
        match sp with
        | .jnamed imported localn =>
          if imported == str "createRequire" then
            { acc with createRequireLocalName := some localn,
                       hasCreateRequireImport := true }
          else acc
        | _ => acc) st
    else st
  let stB :=
    if src == str "path" || src == str "node:path" then
      specs.foldl (fun acc sp =>
        match sp with
        | .jdefault localn => { acc with pathModuleVars := localn :: acc.pathModuleVars }
        | _ => acc) stA
    else stA
  let stC :=
    if src == str "url" || src == str "node:url" then
      specs.foldl (fun acc sp =>
        match sp with
        | .jnamed imported localn =>
          if imported == str "fileURLToPath" then
            { acc with fileURLToPathVars := localn :: acc.fileURLToPathVars }
          else acc
        | _ => acc) stB
    else stB
  let stD :=
    if src == str "node-gyp-build" then
      let s1 := { stC with nodeGypBuildImportNodes := stC.nodeGypBuildImportNodes ++ [(s, e)] }
      specs.foldl (fun acc sp =>
        match sp with
        | .jdefault localn => { acc with nodeGypBuildVars := localn :: acc.nodeGypBuildVars }
        | _ => acc) s1
    else stC
  if src == str "bindings" then
    let s1 := { stD with bindingsImportNodes := stD.bindingsImportNodes ++ [(s, e)] }
    specs.foldl (fun acc sp =>
      match sp with
      | .jdefault localn => { acc with bindingsVars := localn :: acc.bindingsVars }
      | _ => acc) s1
  else stD

/-- `VariableDeclarator` bookkeeping of the walker. -/
def handleDeclarator (st : WalkSt) (id : Text) (s e : Nat) (idn : Jast)
    (init? : Option Jast) : WalkSt :=
  match idn, init? with
  | .jident _ _ varName, some initv =>
    match initv with
    | .jident _ _ nm =>
      if nm == str "__dirname" then
        { st with directoryVars := alSet st.directoryVars varName (dirnameT id) }
      else
        match alGet st.directoryVars nm with
        | some d => { st with directoryVars := alSet st.directoryVars varName d }
        | none => st
    | .jcall _ _ callee2 args2 =>
      let st1 :=
        match resolveDirectoryFromCall st id callee2 args2.toList with
        | some resolvedDir =>
          { st with directoryVars := alSet st.directoryVars varName resolvedDir }
        | none => st
      match callee2 with
      | .jident _ _ cn =>
        if st1.createRequireLocalName == some cn then
          { st1 with customRequireVars := varName :: st1.customRequireVars }
        else if isRequireish st1 cn &&
                (match args2.toList with
                 | [.jstrLit _ _ v] => v == str "node-gyp-build"
                 | _ => false) then
          { st1 with nodeGypBuildImportNodes := st1.nodeGypBuildImportNodes ++ [(s, e)],
                     nodeGypBuildVars := varName :: st1.nodeGypBuildVars }
        else if isRequireish st1 cn &&
                (match args2.toList with
                 | [.jstrLit _ _ v] => v == str "bindings"
                 | _ => false) then
          { st1 with bindingsImportNodes := st1.bindingsImportNodes ++ [(s, e)],
                     bindingsVars := varName :: st1.bindingsVars }
        else st1
      | _ => st1
    | _ => st
  | _, _ => st

/-- Per-node processing of the walker, before recursing into children. -/
def stepNode (caps : SysCaps) (opts : PluginOptions) (id : Text)
    (n : Jast) (st : WalkSt) : WalkSt :=
  match n with
  | .jimport s e specs src => handleImport s e specs src { st with isESModule := true }
  | .jexportDecl _ _ _ => { st with isESModule := true }
  | .jdeclarator s e idn init? => handleDeclarator st id s e idn init?
  | .jcall s e callee args => handleCall caps opts id s e callee args.toList st
  | _ => st

/-- Children of a node, in the object-key order the source's recursive
walk visits them (children that can trigger no handler are omitted). -/
def nodeChildren : Jast → List Jast
  | .jprogram body => body.toList
  | .jexprStmt _ _ ex => [ex]
  | .jident _ _ _ => []
  | .jstrLit _ _ _ => []
  | .jnumLit _ _ _ => []
  | .jmetaProp _ _ _ _ => []
  | .jcall _ _ callee args => callee :: args.toList
  | .jmember _ _ obj prop => [obj, prop]
  | .jvarDecl _ _ decls => decls.toList
  | .jdeclarator _ _ idn init? => idn :: init?.toList
  | .jimport _ _ _ _ => []
  | .jexportDecl _ _ body => body.toList

/-- Total weight of a worklist; one unit of fuel per node suffices for the
preorder walk. -/
def lweight : List Jast → Nat
  | [] => 0
  | n :: l => jsize n + lweight l

/-- The recursive `walk` as a fuelled preorder worklist: process a node,
then its children in order, then the remaining siblings — the exact
visit order of the source's depth-first recursion. -/
def walkF (caps : SysCaps) (opts : PluginOptions) (id : Text) :
    Nat → List Jast → WalkSt → WalkSt
  | 0, _, st => st
  | _ + 1, [], st => st
  | fuel + 1, n :: rest, st =>
    walkF caps opts id fuel (nodeChildren n ++ rest) (stepNode caps opts id n st)

/-- Initial walker state of one `transform` invocation; `hostFmt` models
`this.getModuleInfo(id)` exposing a `format` field. -/
def initWalkSt (caps : SysCaps) (hostFmt : Option Bool) (id code : Text)
    (reg : Registry) : WalkSt :=
  { createRequireLocalName := none
    customRequireVars := []
    nodeGypBuildVars := []
    bindingsVars := []
    nodeGypBuildImportNodes := []
    nodeGypBuildUsageCount := 0
    bindingsImportNodes := []
    bindingsUsageCount := 0
    directoryVars := []
    pathModuleVars := []
    fileURLToPathVars := []
    isESModule := hostFmt.getD (detectModuleType caps id (some code))
    hasCreateRequireImport := false
    replacements := []
    modified := false
    reg := reg }

/-- The two dead-import removal blocks that run after the walk.  Note the
source's guard is `usageCount > 0`, not "every call site rewritten". -/
def cleanupImports (st : WalkSt) : WalkSt :=
  let st1 :=
    if st.nodeGypBuildUsageCount > 0 && !st.nodeGypBuildImportNodes.isEmpty then
      st.nodeGypBuildImportNodes.foldl (fun acc p =>
        { acc with replacements := acc.replacements ++ [⟨p.1, p.2, []⟩],
                   modified := true }) st
    else st
  if st1.bindingsUsageCount > 0 && !st1.bindingsImportNodes.isEmpty then
    st1.bindingsImportNodes.foldl (fun acc p =>
      { acc with replacements := acc.replacements ++ [⟨p.1, p.2, []⟩],
                 modified := true }) st1
  else st1

/-- One whole matcher pass over a parsed file: walk, then cleanup. -/
def runPass (caps : SysCaps) (opts : PluginOptions) (hostFmt : Option Bool)
    (reg : Registry) (code id : Text) (ast : Jast) : WalkSt :=
  cleanupImports
    (walkF caps opts id (lweight [ast]) [ast] (initWalkSt caps hostFmt id code reg))

/-! ## Applying edits and the transform boundary -/

/-- Comparator of the source's `replacements.sort((a, b) => b.start - a.start)`:
descending by start offset. -/
def replRel : Repl → Repl → Prop := fun a b => b.rstart ≤ a.rstart

instance : DecidableRel replRel := fun a b => Nat.decLe b.rstart a.rstart

/-- One splice: `newCode.slice(0, start) + value + newCode.slice(end)`. -/
def spliceOne (code : Text) (r : Repl) : Text :=
  code.take r.rstart ++ r.value ++ code.drop r.rstop

/-- The source's apply step: stable sort by descending start offset, then
splice each replacement in turn. -/
def applyRepls (code : Text) (rs : List Repl) : Text :=
  (List.insertionSort replRel rs).foldl spliceOne code

/-- JS `\s` on its ASCII members (the inputs at hand contain no exotic
Unicode whitespace). -/
def jsSpace (c : Char) : Bool :=
  c == ' ' || c == '\t' || c == '\n' || c == '\r' ||
  c == Char.ofNat 11 || c == Char.ofNat 12

/-- Split into `'\n'`-separated lines. -/
def linesOf : Text → List Text
  | [] => [[]]
  | c :: rest =>
    match linesOf rest with
    | [] => [[]]
    | l :: ls => if c == '\n' then [] :: l :: ls else (c :: l) :: ls

/-- A line matched by the source's `^import\s+.*?;?\s*$` (multiline) scan:
starts with `import` followed by whitespace.  The lazy tail of the regex
always extends the match to the end of the line. -/
def isImportLine (l : Text) : Bool :=
  startsWithT l (str "import") &&
  (match l.drop 6 with
   | c :: _ => jsSpace c
   | [] => false)

/-- Offset just after the last import line (the insertion point of the
`createRequire` scaffolding); models the regex `exec` loop of the source
on its line-per-import shape. -/
def lastImportLineEnd (t : Text) : Option Nat :=
  let ls := linesOf t
  (ls.foldl (fun (acc : Nat × Option Nat) l =>
      let endPos := acc.1 + l.length
      (endPos + 1, if isImportLine l then some endPos else acc.2))
    ((0 : Nat), (none : Option Nat))).2

/-- The injected scaffolding import statement. -/
def crImportLine : Text := str "import { createRequire } from 'module';\n"

/-- Insert the scaffolding after the last import line, or prepend. -/
def insertAfterLastImport (t inj : Text) : Text :=
  match lastImportLineEnd t with
  | some p => t.take p ++ str "\n" ++ inj ++ t.drop p
  | none => inj ++ str "\n" ++ t

/-- The exact-string bindings trigger check of `transform`. -/
def hasBindingsPackage (code : Text) : Bool :=
  includesT code (str "require('bindings')") ||
  includesT code (str "require(\"bindings\")") ||
  includesT code (str "from 'bindings'") ||
  includesT code (str "from \"bindings\"")

/-- Backtick character (kept out of literals). -/
def bquote : Char := Char.ofNat 96

/-- The `[a-z0-9-]` character class. -/
def isLowerAlnumDash (c : Char) : Bool :=
  ('a' ≤ c && c ≤ 'z') || ('0' ≤ c && c ≤ '9') || c == '-'

/-- After the `@`: one or more of `[a-z0-9-]`, then a `/`. -/
def tplBodyOk (t : Text) : Bool :=
  let body := t.takeWhile isLowerAlnumDash
  !body.isEmpty &&
  (match t.drop body.length with
   | '/' :: _ => true
   | [] => false
   | _ :: _ => false)

/-- Match of `require\s*\(\s*` + backtick + `@[a-z0-9-]+\/` anchored at the
head of `s`. -/
def matchTplAt (s : Text) : Bool :=
  if startsWithT s (str "require") then
    let r1 := s.drop 7
    let r2 := r1.dropWhile jsSpace
    match r2 with
    | '(' :: r3 =>
      let r4 := r3.dropWhile jsSpace
      match r4 with
      | b :: '@' :: r5 => b == bquote && tplBodyOk r5
      | _ => false
    | _ => false
  else false

/-- The template-literal-require trigger regex of `transform`. -/
def hasTplRequire : Text → Bool
  | [] => false
  | c :: rest => matchTplAt (c :: rest) || hasTplRequire rest

/-- The early-exit trigger guard of `transform`. -/
def hasTriggers (code : Text) : Bool :=
  includesT code (str ".node") || includesT code (str "node-gyp-build") ||
  hasBindingsPackage code || hasTplRequire code

structure TransformOut where
  out : Option Text
  warned : Bool
  reg : Registry
deriving DecidableEq

/-- The `transform` hook.  `isBuild` is `command === "build"`, `hostFmt`
the optional `format` of `this.getModuleInfo(id)`, `parseAst` the host
parser (`none` models a thrown parse exception, which the source converts
into a `console.warn` plus an unchanged result). -/
def transform (caps : SysCaps) (opts : PluginOptions) (isBuild : Bool)
    (hostFmt : Option Bool) (parseAst : Text → Option Jast)
    (reg : Registry) (code id : Text) : TransformOut :=
  let enabled := opts.forced.getD isBuild
  if !enabled then ⟨none, false, reg⟩
  else if !(hasTriggers code) then ⟨none, false, reg⟩
  else
    match parseAst code with
    | none => ⟨none, true, reg⟩
    | some ast =>
      let st := runPass caps opts hostFmt reg code id ast
      if st.modified then
        let createRequireInjection :=
          if st.isESModule && st.modified && !st.hasCreateRequireImport then
            crImportLine
          else []
        let newCode := applyRepls code st.replacements
        let final :=
          if !createRequireInjection.isEmpty then
            insertAfterLastImport newCode createRequireInjection
          else newCode
        ⟨some final, false, st.reg⟩
      else ⟨none, false, st.reg⟩

/-- The host driving `transform` over a list of files
`(code, id, hostFmt)`, threading the shared registry — one invocation per
file, as the bundler does. -/
def transformAll (caps : SysCaps) (opts : PluginOptions) (isBuild : Bool)
    (parseAst : Text → Option Jast) :
    Registry → List (Text × Text × Option Bool) → List (Option Text × Bool) × Registry
  | reg, [] => ([], reg)
  | reg, (code, id, hostFmt) :: rest =>
    let r := transform caps opts isBuild hostFmt parseAst reg code id
    let rec2 := transformAll caps opts isBuild parseAst r.reg rest
    ((r.out, r.warned) :: rec2.1, rec2.2)

structure ResolveOut where
  out : Option Text
  vmTypes : List (Text × Bool)
  reg : Registry
  /-- number of `fs.readFileSync` calls performed. -/
  reads : Nat
deriving DecidableEq

/-- `"\0native:" + path` virtual module key. -/
def nativeKey (p : Text) : Text := Char.ofNat 0 :: (str "native:" ++ p)

/-- The `resolveId` hook.  `importerFmt` models the `format` field of
`this.getModuleInfo(importer)` when present. -/
def resolveId (caps : SysCaps) (opts : PluginOptions) (isBuild : Bool)
    (importerFmt : Option Bool) (reg : Registry) (vmTypes : List (Text × Bool))
    (source : Text) (importer : Option Text) : ResolveOut :=
  let enabled := opts.forced.getD isBuild
  if !enabled then ⟨none, vmTypes, reg, 0⟩
  else
    match importer with
    | none => ⟨none, vmTypes, reg, 0⟩
    | some imp =>
      let sourceWithoutQuery := takeUntilQm source
      let normalizedSource :=
        if startsWithT sourceWithoutQuery (str "./") then sourceWithoutQuery.drop 2
        else sourceWithoutQuery
      let basename := basenameT normalizedSource
      match alGet reg.hashedToPath basename with
      | some originalPath =>
        let importingModuleType := importerFmt.getD (detectModuleType caps imp none)
        let virtualId := nativeKey originalPath
        ⟨some virtualId, alSet vmTypes virtualId importingModuleType, reg, 0⟩
      | none =>
        if !(shouldProcessFile opts source imp) then ⟨none, vmTypes, reg, 0⟩
        else
          let resolved := presolveT (dirnameT imp) source
          if !(caps.fsExists resolved) then ⟨none, vmTypes, reg, 0⟩
          else
            let content := caps.readFile resolved
            let hash := contentHash caps content
            let filename := basenameT source
            let hashedFilename := generateHashedFilename opts filename hash
            let info : NativeFileInfo := ⟨content, hashedFilename, resolved⟩
            let reg2 : Registry :=
              ⟨alSet reg.nativeFiles resolved info,
               alSet reg.hashedToPath hashedFilename resolved⟩
            let importingModuleType := importerFmt.getD (detectModuleType caps imp none)
            let virtualId := nativeKey resolved
            ⟨some virtualId, alSet vmTypes virtualId importingModuleType, reg2, 1⟩

/-! ## Derived specification views -/

/-- Node kinds whose presence flips `isESModule` during the walk. -/
def isEsTop : Jast → Bool
  | .jimport _ _ _ _ => true
  | .jexportDecl _ _ _ => true
  | _ => false

/-- Fuelled preorder scan for an import/export declaration, aligned with
`walkF`. -/
def hasEsF : Nat → List Jast → Bool
  | 0, _ => false
  | _ + 1, [] => false
  | fuel + 1, n :: rest => isEsTop n || hasEsF fuel (nodeChildren n ++ rest)

/-- Does the parsed file contain any import/export declaration? -/
def astHasEsDecl (ast : Jast) : Bool := hasEsF (lweight [ast]) [ast]

/-- The filename-suffix convention as a three-way answer. -/
def suffixFormat (fileId : Text) : Option Bool :=
  if endsWithT fileId (str ".mjs") || endsWithT fileId (str ".mts") then some true
  else if endsWithT fileId (str ".cjs") || endsWithT fileId (str ".cts") then some false
  else none

/-- The nearest-ancestor manifest `type` walk as a three-way answer. -/
def manifestFormat (caps : SysCaps) (fileId : Text) : Option Bool :=
  pkgTypeWalk caps (fileId.length + 1) (dirnameT fileId) (parseRootT fileId)

/-- Module-format precedence as the code actually implements it
(the amended claim): declarative syntax in the parsed file first, then the
host-supplied format, then the suffix convention, then the raw-text
lexical heuristics, then the manifest walk, defaulting to CommonJS. -/
def amendedModuleFormat (caps : SysCaps) (hostFmt : Option Bool)
    (id code : Text) (ast : Jast) : Bool :=
  if astHasEsDecl ast then true
  else
    match hostFmt with
    | some b => b
    | none =>
      match suffixFormat id with
      | some b => b
      | none =>
        match lexicalFormat code with
        | some b => b
        | none =>
          match manifestFormat caps id with
          | some b => b
          | none => false

/-- Module-format precedence exactly as the claim words it: host format
first, then declarative syntax, then suffix, then manifest, then lexical
heuristics, defaulting to CommonJS.  (Stated from the claim, for
refutation.) -/
def claimedModuleFormat (caps : SysCaps) (hostFmt : Option Bool)
    (id code : Text) (ast : Jast) : Bool :=
  match hostFmt with
  | some b => b
  | none =>
    if astHasEsDecl ast then true
    else
      match suffixFormat id with
      | some b => b
      | none =>
        match manifestFormat caps id with
        | some b => b
        | none =>
          match lexicalFormat code with
          | some b => b
          | none => false

/-- Disjointness of two half-open edit ranges. -/
def disjointB (a b : Repl) : Bool :=
  decide (a.rstop ≤ b.rstart) || decide (b.rstop ≤ a.rstart)

/-- Pairwise non-overlap of an edit list. -/
def overlapFree : List Repl → Bool
  | [] => true
  | r :: rs => rs.all (fun s => disjointB r s) && overlapFree rs

/-! ## Concrete fixtures used by counterexamples and witnesses -/

/-- Platform fixture: a `prebuilds/linux-x64/a.node` exists under `/p`,
nothing else; every file has bytes `[1, 2, 3]` hashing to
`abcdef1234567890…`. -/
def capsA : SysCaps :=
  { fsExists := fun p =>
      p == str "/p/prebuilds/linux-x64" || p == str "/p/prebuilds/linux-x64/a.node"
    readdir := fun p =>
      if p == str "/p/prebuilds/linux-x64" then some [str "a.node"] else none
    readFile := fun _ => [1, 2, 3]
    pkgType := fun _ => none
    pkgMain := fun _ => none
    md5hex := fun _ => str "abcdef1234567890abcdef1234567890"
    platform := str "linux"
    arch := str "x64" }

/-- Like `capsA`, but additionally `node_modules/node-gyp-build` under `/p`
contains an `index.node` (so Pattern 7 resolves the package name itself). -/
def capsB : SysCaps :=
  { capsA with
    fsExists := fun p =>
      p == str "/p/prebuilds/linux-x64" || p == str "/p/prebuilds/linux-x64/a.node" ||
      p == str "/p/node_modules" || p == str "/p/node_modules/node-gyp-build" ||
      p == str "/p/node_modules/node-gyp-build/index.node" }

def codeC1 : Text :=
  str "var gyp = require('node-gyp-build');\nvar a = gyp(__dirname);\nvar b = gyp(other);\n"

def astC1 : Jast :=
  .jprogram (jl [
    .jvarDecl 0 36 (jl [.jdeclarator 4 35 (.jident 4 7 (str "gyp"))
      (some (.jcall 10 35 (.jident 10 17 (str "require"))
        (jl [.jstrLit 18 34 (str "node-gyp-build")])))]),
    .jvarDecl 37 60 (jl [.jdeclarator 41 59 (.jident 41 42 (str "a"))
      (some (.jcall 45 59 (.jident 45 48 (str "gyp"))
        (jl [.jident 49 58 (str "__dirname")])))]),
    .jvarDecl 61 80 (jl [.jdeclarator 65 79 (.jident 65 66 (str "b"))
      (some (.jcall 69 79 (.jident 69 72 (str "gyp"))
        (jl [.jident 73 78 (str "other")])))])])

def codeC9 : Text :=
  str "var gyp = require('node-gyp-build');\nvar x = gyp(__dirname);\n"

def astC9 : Jast :=
  .jprogram (jl [
    .jvarDecl 0 36 (jl [.jdeclarator 4 35 (.jident 4 7 (str "gyp"))
      (some (.jcall 10 35 (.jident 10 17 (str "require"))
        (jl [.jstrLit 18 34 (str "node-gyp-build")])))]),
    .jvarDecl 37 60 (jl [.jdeclarator 41 59 (.jident 41 42 (str "x"))
      (some (.jcall 45 59 (.jident 45 48 (str "gyp"))
        (jl [.jident 49 58 (str "__dirname")])))])])


/-! ## Helper lemmas -/

theorem alGet_alSet_self (l : List (Text × α)) (k : Text) (v : α) :
    alGet (alSet l k v) k = some v := by
  simp [alGet, alSet, List.find?]

theorem alGet_alSet_ne (l : List (Text × α)) (k k' : Text) (v : α) (h : k ≠ k') :
    alGet (alSet l k v) k' = alGet l k' := by
  have hb : (k == k') = false := beq_eq_false_iff_ne.mpr h
  simp [alGet, alSet, List.find?, hb]

/-! ## C2 — idempotent content-addressed resolution -/

/-- C2: resolving the same absolute binary path a second time — with any
filename argument, i.e. from the same call site, a different call site or a
different file — returns the identical already-stored record, performs zero
byte-reads, and leaves the registry untouched; hence the output name is
byte-identical and any two call sites resolving to the same absolute file
are rewritten to the same output name. -/
theorem registry_resolve_idempotent (caps : SysCaps) (opts : PluginOptions)
    (reg : Registry) (p f1 f2 : Text) :
    getOrCreate caps opts (getOrCreate caps opts reg p f1).reg p f2 =
      ⟨(getOrCreate caps opts reg p f1).info, (getOrCreate caps opts reg p f1).reg, 0⟩ := by
  unfold getOrCreate
  cases h : alGet reg.nativeFiles p with
  | some info => simp [h]
  | none => simp [h, alGet_alSet_self]

/-! ## C5 — deterministic output naming -/

/-- C5: the output name is a deterministic function of the original
filename's stem, the content digest, the original suffix and the naming
mode.  The digest is the upper-cased 8-character hex digest of the exact
bytes; `hash-only` yields `DIGEST.suffix` and any other mode (`preserve`,
the default) yields `stem-DIGEST.suffix`, where `stem`/`suffix` split the
filename at its last dot (at a positive index).  Determinism over the
bytes is the first conjunct: the name is `outputName` of the exact bytes. -/
theorem outputName_deterministic (caps : SysCaps) (opts : PluginOptions)
    (f hashv : Text) (bytes : List Nat) (i : Nat)
    (hdot : lastDotIdx f = some i) (hpos : 0 < i) :
    outputName caps opts f bytes =
      generateHashedFilename opts f ((caps.md5hex bytes).take 8) ∧
    (opts.filenameFormat = some FilenameFmt.hashOnly →
      generateHashedFilename opts f hashv = toUpperT hashv ++ f.drop i) ∧
    (opts.filenameFormat ≠ some FilenameFmt.hashOnly →
      generateHashedFilename opts f hashv =
        f.take i ++ str "-" ++ toUpperT hashv ++ f.drop i) := by
  refine ⟨rfl, ?_, ?_⟩ <;> intro hf
  · simp [generateHashedFilename, hdot, hpos, hf]
  · have hb : (opts.filenameFormat == some FilenameFmt.hashOnly) = false :=
      beq_eq_false_iff_ne.mpr hf
    simp [generateHashedFilename, hdot, hpos, hb]

/-- Witness for C5 at `f = "addon.node"`, `i = 5`, default options. -/
theorem outputName_deterministic_witness :
    lastDotIdx (str "addon.node") = some 5 ∧ 0 < 5 ∧
    (outputName capsA {} (str "addon.node") [1, 2, 3] =
      generateHashedFilename {} (str "addon.node") ((capsA.md5hex [1, 2, 3]).take 8) ∧
    (({} : PluginOptions).filenameFormat = some FilenameFmt.hashOnly →
      generateHashedFilename {} (str "addon.node") (str "abcdef12") =
        toUpperT (str "abcdef12") ++ (str "addon.node").drop 5) ∧
    (({} : PluginOptions).filenameFormat ≠ some FilenameFmt.hashOnly →
      generateHashedFilename {} (str "addon.node") (str "abcdef12") =
        (str "addon.node").take 5 ++ str "-" ++ toUpperT (str "abcdef12") ++
          (str "addon.node").drop 5)) :=
  ⟨by decide, by decide,
   outputName_deterministic capsA {} (str "addon.node") (str "abcdef12") [1, 2, 3] 5
     (by decide) (by decide)⟩

/-! ## C3 — output-name collisions are NOT fatal -/

def hashOnlyOpts : PluginOptions := { filenameFormat := some FilenameFmt.hashOnly }

/-- Counterexample to C3 as stated: two distinct absolute paths with
identical bytes in `hash-only` mode compute the same output name, yet the
engine does not fail — the second resolution completes normally (it reads
and registers the file) and silently overwrites the reverse-lookup entry,
which afterwards serves the second path under the shared name. -/
theorem collision_not_fatal_counterexample :
    (getOrCreate capsA hashOnlyOpts ⟨[], []⟩ (str "/a/x.node") (str "x.node")).info.hashedFilename =
      (getOrCreate capsA hashOnlyOpts
        (getOrCreate capsA hashOnlyOpts ⟨[], []⟩ (str "/a/x.node") (str "x.node")).reg
        (str "/b/y.node") (str "y.node")).info.hashedFilename ∧
    str "/a/x.node" ≠ str "/b/y.node" ∧
    (getOrCreate capsA hashOnlyOpts
      (getOrCreate capsA hashOnlyOpts ⟨[], []⟩ (str "/a/x.node") (str "x.node")).reg
      (str "/b/y.node") (str "y.node")).reads = 1 ∧
    alGet (getOrCreate capsA hashOnlyOpts
      (getOrCreate capsA hashOnlyOpts ⟨[], []⟩ (str "/a/x.node") (str "x.node")).reg
      (str "/b/y.node") (str "y.node")).reg.hashedToPath
      (str "ABCDEF12.node") = some (str "/b/y.node") := by
  decide

/-- C3 as amended: when two different absolute paths compute the same
output name, the condition is not detected and nothing fails: both records
are kept under their distinct source paths, the second file is processed
normally (one byte-read), and the reverse-lookup map is silently
overwritten so the shared name now resolves to the later path. -/
theorem collision_overwrites_reverse_map (caps : SysCaps) (opts : PluginOptions)
    (reg : Registry) (p1 p2 f1 f2 : Text)
    (h1 : alGet reg.nativeFiles p1 = none)
    (h2 : alGet reg.nativeFiles p2 = none)
    (hne : p1 ≠ p2)
    (hcol : outputName caps opts f1 (caps.readFile p1) =
            outputName caps opts f2 (caps.readFile p2)) :
    alGet (getOrCreate caps opts (getOrCreate caps opts reg p1 f1).reg p2 f2).reg.hashedToPath
        (outputName caps opts f1 (caps.readFile p1)) = some p2 ∧
    alGet (getOrCreate caps opts (getOrCreate caps opts reg p1 f1).reg p2 f2).reg.nativeFiles
        p1 = some ⟨caps.readFile p1, outputName caps opts f1 (caps.readFile p1), p1⟩ ∧
    alGet (getOrCreate caps opts (getOrCreate caps opts reg p1 f1).reg p2 f2).reg.nativeFiles
        p2 = some ⟨caps.readFile p2, outputName caps opts f2 (caps.readFile p2), p2⟩ ∧
    (getOrCreate caps opts (getOrCreate caps opts reg p1 f1).reg p2 f2).reads = 1 := by
  have hlook : alGet (getOrCreate caps opts reg p1 f1).reg.nativeFiles p2 = none := by
    unfold getOrCreate
    simp [h1, alGet_alSet_ne _ _ _ _ hne, h2]
  unfold getOrCreate at hlook ⊢
  simp [h1] at hlook ⊢
  simp [hlook]
  refine ⟨?_, ?_, ?_⟩
  · rw [hcol]
    exact alGet_alSet_self _ _ _
  · rw [alGet_alSet_ne _ _ _ _ (Ne.symm hne)]
    exact alGet_alSet_self _ _ _
  · exact alGet_alSet_self _ _ _

/-- Witness for the amended C3 on the concrete collision fixture. -/
theorem collision_overwrites_reverse_map_witness :
    (alGet (⟨[], []⟩ : Registry).nativeFiles (str "/a/x.node") = none ∧
     alGet (⟨[], []⟩ : Registry).nativeFiles (str "/b/y.node") = none ∧
     str "/a/x.node" ≠ str "/b/y.node" ∧
     outputName capsA hashOnlyOpts (str "x.node") (capsA.readFile (str "/a/x.node")) =
       outputName capsA hashOnlyOpts (str "y.node") (capsA.readFile (str "/b/y.node"))) ∧
    alGet (getOrCreate capsA hashOnlyOpts
        (getOrCreate capsA hashOnlyOpts ⟨[], []⟩ (str "/a/x.node") (str "x.node")).reg
        (str "/b/y.node") (str "y.node")).reg.hashedToPath
      (outputName capsA hashOnlyOpts (str "x.node") (capsA.readFile (str "/a/x.node"))) =
      some (str "/b/y.node") :=
  ⟨⟨by decide, by decide, by decide, by decide⟩,
   (collision_overwrites_reverse_map capsA hashOnlyOpts ⟨[], []⟩
      (str "/a/x.node") (str "/b/y.node") (str "x.node") (str "y.node")
      (by decide) (by decide) (by decide) (by decide)).1⟩

/-! ## C10 — trigger guard short-circuits before parsing -/

/-- C10: when the raw text contains none of the trigger markers —
`.node`, `node-gyp-build`, a quoted import/require of `bindings`, or a
template-literal require with a scoped package prefix — `transform`
returns the no-change result with the registry untouched, and the result
is the same for every parser, i.e. the parser is never consulted. -/
theorem transform_skips_without_triggers (caps : SysCaps) (opts : PluginOptions)
    (isBuild : Bool) (hostFmt : Option Bool) (parseAst : Text → Option Jast)
    (reg : Registry) (code id : Text)
    (hq : hasTriggers code = false) :
    transform caps opts isBuild hostFmt parseAst reg code id = ⟨none, false, reg⟩ := by
  unfold transform
  cases henabled : opts.forced.getD isBuild <;> simp [henabled, hq]

/-- Witness for C10 on a marker-free file (with a parser that would
even reject it, showing the parser is irrelevant). -/
theorem transform_skips_without_triggers_witness :
    hasTriggers (str "console.log(1);") = false ∧
    transform capsA {} true none (fun _ => none) ⟨[], []⟩
        (str "console.log(1);") (str "/p/main.js") = ⟨none, false, ⟨[], []⟩⟩ :=
  ⟨by decide,
   transform_skips_without_triggers capsA {} true none (fun _ => none) ⟨[], []⟩
     (str "console.log(1);") (str "/p/main.js") (by decide)⟩

/-! ## C4 — parse failure leaves the file untouched and the build running -/

theorem transformAll_append (caps : SysCaps) (opts : PluginOptions) (isBuild : Bool)
    (parseAst : Text → Option Jast) (reg : Registry)
    (xs ys : List (Text × Text × Option Bool)) :
    transformAll caps opts isBuild parseAst reg (xs ++ ys) =
      ((transformAll caps opts isBuild parseAst reg xs).1 ++
        (transformAll caps opts isBuild parseAst
          (transformAll caps opts isBuild parseAst reg xs).2 ys).1,
       (transformAll caps opts isBuild parseAst
         (transformAll caps opts isBuild parseAst reg xs).2 ys).2) := by
  induction xs generalizing reg with
  | nil => simp [transformAll]
  | cons x rest ih =>
    obtain ⟨code, id, hostFmt⟩ := x
    simp [transformAll, ih]

/-- C4: a file whose parse raises is returned completely untouched (the
no-change result), flagged with a non-fatal warning, and leaves the shared
registry unchanged; in a multi-file run every other file is processed
exactly as if the failing file were absent. -/
theorem parse_failure_nondestructive (caps : SysCaps) (opts : PluginOptions)
    (isBuild : Bool) (hostFmt : Option Bool) (parseAst : Text → Option Jast)
    (reg : Registry) (code id : Text)
    (hen : opts.forced.getD isBuild = true)
    (htrig : hasTriggers code = true)
    (hparse : parseAst code = none) :
    transform caps opts isBuild hostFmt parseAst reg code id = ⟨none, true, reg⟩ ∧
    (∀ pre post,
      transformAll caps opts isBuild parseAst reg (pre ++ (code, id, hostFmt) :: post) =
        ((transformAll caps opts isBuild parseAst reg pre).1 ++
          (none, true) ::
            (transformAll caps opts isBuild parseAst
              (transformAll caps opts isBuild parseAst reg pre).2 post).1,
         (transformAll caps opts isBuild parseAst
           (transformAll caps opts isBuild parseAst reg pre).2 post).2)) := by
  have hone : transform caps opts isBuild hostFmt parseAst reg code id = ⟨none, true, reg⟩ := by
    unfold transform
    simp [hen, htrig, hparse]
  refine ⟨hone, fun pre post => ?_⟩
  rw [transformAll_append]
  have hmid : ∀ r : Registry,
      transformAll caps opts isBuild parseAst r ((code, id, hostFmt) :: post) =
        ((none, true) :: (transformAll caps opts isBuild parseAst r post).1,
         (transformAll caps opts isBuild parseAst r post).2) := by
    intro r
    have : transform caps opts isBuild hostFmt parseAst r code id = ⟨none, true, r⟩ := by
      unfold transform
      simp [hen, htrig, hparse]
    simp [transformAll, this]
  rw [hmid]

/-- Witness for C4: a malformed file containing the `.node` marker, a
parser rejecting it, one later file in the run. -/
theorem parse_failure_nondestructive_witness :
    (({} : PluginOptions).forced.getD true = true ∧
     hasTriggers (str "require('./x.node'") = true ∧
     (fun (_ : Text) => (none : Option Jast)) (str "require('./x.node'") = none) ∧
    transform capsA {} true none (fun _ => none) ⟨[], []⟩
        (str "require('./x.node'") (str "/p/bad.js") = ⟨none, true, ⟨[], []⟩⟩ :=
  ⟨⟨by decide, by decide, rfl⟩,
   (parse_failure_nondestructive capsA {} true none (fun _ => none) ⟨[], []⟩
      (str "require('./x.node'") (str "/p/bad.js") (by decide) (by decide) rfl).1⟩

/-! ## C7 — known output names resolve by reverse lookup, never re-processed -/

/-- C7: when the basename of a specifier — after stripping a `?query`
suffix and a leading `./` — is an output name previously generated by the
engine, `resolveId` returns the virtual-module key carrying the original
absolute path obtained by reverse lookup, records the importer's module
type for that key, performs zero byte-reads and leaves both registry maps
untouched (no re-hashing, no new record). -/
theorem resolveId_reverse_lookup (caps : SysCaps) (opts : PluginOptions)
    (isBuild : Bool) (importerFmt : Option Bool) (reg : Registry)
    (vmTypes : List (Text × Bool)) (source imp originalPath : Text)
    (hen : opts.forced.getD isBuild = true)
    (hhit : alGet reg.hashedToPath
        (basenameT (if startsWithT (takeUntilQm source) (str "./")
                    then (takeUntilQm source).drop 2
                    else takeUntilQm source)) = some originalPath) :
    resolveId caps opts isBuild importerFmt reg vmTypes source (some imp) =
      ⟨some (nativeKey originalPath),
       alSet vmTypes (nativeKey originalPath)
         (importerFmt.getD (detectModuleType caps imp none)),
       reg, 0⟩ := by
  unfold resolveId
  simp [hen, hhit]

/-- Witness for C7: the reverse map knows `addon-ABCDEF12.node`; the
specifier carries a leading `./` and a Vite query suffix. -/
theorem resolveId_reverse_lookup_witness :
    (({} : PluginOptions).forced.getD true = true ∧
     alGet (⟨[], [(str "addon-ABCDEF12.node", str "/proj/addon.node")]⟩ : Registry).hashedToPath
       (basenameT (if startsWithT (takeUntilQm (str "./addon-ABCDEF12.node?commonjs-external"))
                     (str "./")
                   then (takeUntilQm (str "./addon-ABCDEF12.node?commonjs-external")).drop 2
                   else takeUntilQm (str "./addon-ABCDEF12.node?commonjs-external"))) =
       some (str "/proj/addon.node")) ∧
    resolveId capsA {} true (some false)
        (⟨[], [(str "addon-ABCDEF12.node", str "/proj/addon.node")]⟩ : Registry) []
        (str "./addon-ABCDEF12.node?commonjs-external") (some (str "/proj/main.js")) =
      ⟨some (nativeKey (str "/proj/addon.node")),
       alSet [] (nativeKey (str "/proj/addon.node")) false,
       ⟨[], [(str "addon-ABCDEF12.node", str "/proj/addon.node")]⟩, 0⟩ :=
  ⟨⟨by decide, by decide⟩,
   resolveId_reverse_lookup capsA {} true (some false)
     (⟨[], [(str "addon-ABCDEF12.node", str "/proj/addon.node")]⟩ : Registry) []
     (str "./addon-ABCDEF12.node?commonjs-external") (str "/proj/main.js")
     (str "/proj/addon.node") (by decide) (by decide)⟩

/-! ## C1 — dead-declaration cleanup fires on ANY rewrite, not on ALL -/

/-- C1 (code bug): on a file with two `node-gyp-build` call sites of which
only the first is resolvable, the pass rewrites call site `a` (span
45–59), leaves call site `b` (span 69–79) completely unrewritten — and
still emits the removal edit (span 4–35) for the loader declaration,
because the source's guard is `nodeGypBuildUsageCount > 0` although its
own comment says "remove … if we replaced all usages".  The replacement
list below contains the rewrite of site `a` and the declaration removal,
and nothing covering site `b`. -/
theorem cleanup_removes_despite_live_call_site :
    (runPass capsA {} none ⟨[], []⟩ codeC1 (str "/p/main.js") astC1).replacements =
      [⟨45, 59, str "require(\"./a-ABCDEF12.node\")"⟩, ⟨4, 35, []⟩] ∧
    (runPass capsA {} none ⟨[], []⟩ codeC1 (str "/p/main.js") astC1).nodeGypBuildUsageCount = 1 := by
  decide

/-! ## C9 — accumulated edits are not always pairwise disjoint -/

/-- Counterexample to C9 as stated: when the loader declaration's own
initializer literal is rewritten by Pattern 7 (here `node-gyp-build`
itself resolves to a `.node` file under `node_modules`) and a call site
also resolves, the dead-declaration removal edit (span 4–35) strictly
contains the literal edit (span 18–34): the accumulated edit set of this
single pass is not pairwise non-overlapping. -/
theorem edits_can_overlap_counterexample :
    overlapFree (runPass capsB {} none ⟨[], []⟩ codeC9 (str "/p/main.js") astC9).replacements =
      false := by
  decide

/-- Strict version of the sort order: strictly descending start offsets. -/
def replGt : Repl → Repl → Prop := fun a b => b.rstart < a.rstart

instance : IsTotal Repl replRel := ⟨fun a b => Nat.le_total b.rstart a.rstart⟩

instance : IsTrans Repl replRel := ⟨fun _ _ _ hab hbc => Nat.le_trans hbc hab⟩

instance : IsAntisymm Repl replGt := ⟨fun _ _ h1 h2 => (Nat.lt_asymm h1 h2).elim⟩

theorem pairwise_ne_start_of_disjoint (l : List Repl)
    (hD : l.Pairwise (fun a b => disjointB a b = true))
    (hNE : ∀ r ∈ l, r.rstart < r.rstop) :
    l.Pairwise (fun a b => a.rstart ≠ b.rstart) := by
  refine hD.imp_of_mem ?_
  intro a b ha hb hd
  have hdj : a.rstop ≤ b.rstart ∨ b.rstop ≤ a.rstart := by
    simpa [disjointB] using hd
  have ha' := hNE a ha
  have hb' := hNE b hb
  omega

theorem insertionSort_canonical (l1 l2 : List Repl) (hp : l1.Perm l2)
    (hne : l1.Pairwise (fun a b => a.rstart ≠ b.rstart)) :
    List.insertionSort replRel l1 = List.insertionSort replRel l2 := by
  have hsym : ∀ {x y : Repl}, x.rstart ≠ y.rstart → y.rstart ≠ x.rstart :=
    fun h => Ne.symm h
  have hne2 : l2.Pairwise (fun a b => a.rstart ≠ b.rstart) :=
    (hp.pairwise_iff hsym).1 hne
  have hstrict : ∀ l : List Repl, l.Pairwise (fun a b => a.rstart ≠ b.rstart) →
      List.Sorted replGt (List.insertionSort replRel l) := by
    intro l hl
    have hs : List.Sorted replRel (List.insertionSort replRel l) :=
      List.sorted_insertionSort replRel l
    have hl' : (List.insertionSort replRel l).Pairwise (fun a b => a.rstart ≠ b.rstart) :=
      ((List.perm_insertionSort replRel l).pairwise_iff hsym).2 hl
    exact (hs.and hl').imp (fun h => Nat.lt_of_le_of_ne h.1 (Ne.symm h.2))
  exact List.eq_of_perm_of_sorted
    (((List.perm_insertionSort replRel l1).trans hp).trans
      (List.perm_insertionSort replRel l2).symm)
    (hstrict l1 hne) (hstrict l2 hne2)

/-- C9 as amended: the edit set of a pass can overlap (see the
counterexample), but for any pairwise non-overlapping set of nonempty
edits the apply step — the stable sort by descending start offset followed
by splicing — yields a result independent of the order in which the edits
were accumulated. -/
theorem applyRepls_order_independent (code : Text) (l1 l2 : List Repl)
    (hp : l1.Perm l2)
    (hD : l1.Pairwise (fun a b => disjointB a b = true))
    (hNE : ∀ r ∈ l1, r.rstart < r.rstop) :
    applyRepls code l1 = applyRepls code l2 := by
  unfold applyRepls
  rw [insertionSort_canonical l1 l2 hp (pairwise_ne_start_of_disjoint l1 hD hNE)]

/-- Witness for the amended C9: two disjoint nonempty edits applied in
either accumulation order. -/
theorem applyRepls_order_independent_witness :
    ([(⟨10, 12, str "XY"⟩ : Repl), ⟨2, 5, str "A"⟩].Perm
       [(⟨2, 5, str "A"⟩ : Repl), ⟨10, 12, str "XY"⟩] ∧
     [(⟨10, 12, str "XY"⟩ : Repl), ⟨2, 5, str "A"⟩].Pairwise
       (fun a b => disjointB a b = true) ∧
     (∀ r ∈ [(⟨10, 12, str "XY"⟩ : Repl), ⟨2, 5, str "A"⟩], r.rstart < r.rstop)) ∧
    applyRepls (str "abcdefghijklmnop") [⟨10, 12, str "XY"⟩, ⟨2, 5, str "A"⟩] =
      applyRepls (str "abcdefghijklmnop") [⟨2, 5, str "A"⟩, ⟨10, 12, str "XY"⟩] :=
  ⟨⟨by decide, by decide, by decide⟩,
   applyRepls_order_independent (str "abcdefghijklmnop")
     [⟨10, 12, str "XY"⟩, ⟨2, 5, str "A"⟩] [⟨2, 5, str "A"⟩, ⟨10, 12, str "XY"⟩]
     (by decide) (by decide) (by decide)⟩

/-! ## C8 — node-gyp-build style resolution -/

theorem selected_mem (p : Text → Bool) (f0 : Text) (rest : List Text) :
    (((f0 :: rest).find? p).getD f0) ∈ f0 :: rest := by
  cases hf : (f0 :: rest).find? p with
  | none => simp
  | some x => simpa using List.mem_of_find?_eq_some hf

/-- C8: on a well-behaved filesystem (an existing directory can be listed,
and listed entries exist), the resolver (1) serves a hit from the
platform+architecture `prebuilds` directory whenever that directory holds
any `.node` candidate, selecting the first `napi`-named candidate when one
exists (so a cross-version-stable binary beats an ABI-specific one) and
the first candidate otherwise; (2) falls through to the legacy
`build/Release` probe exactly when the platform directory is absent or
holds no `.node` binaries; (3) is the two-stage composition of the two
probes; and (4) returns `none` when both directories are absent — it is a
total function, so it never raises. -/
theorem resolveNodeGypBuild_spec (caps : SysCaps) (directory : Text)
    (hread : caps.fsExists (prebuildsDirOf caps directory) = true →
      (caps.readdir (prebuildsDirOf caps directory)).isSome = true)
    (hmem : ∀ f ∈ (caps.readdir (prebuildsDirOf caps directory)).getD [],
      caps.fsExists (pjoin (prebuildsDirOf caps directory) f) = true) :
    (∀ l f0 rest,
      caps.fsExists (prebuildsDirOf caps directory) = true →
      caps.readdir (prebuildsDirOf caps directory) = some l →
      l.filter (fun f => endsWithT f (str ".node")) = f0 :: rest →
      (resolveNodeGypBuild caps directory =
        some (pjoin (prebuildsDirOf caps directory)
          (((f0 :: rest).find? (fun f => includesT f (str "napi"))).getD f0)) ∧
       ((f0 :: rest).any (fun f => includesT f (str "napi")) = true →
        includesT (((f0 :: rest).find? (fun f => includesT f (str "napi"))).getD f0)
          (str "napi") = true))) ∧
    (tryPrebuilds caps directory = none ↔
      (caps.fsExists (prebuildsDirOf caps directory) = false ∨
       ∀ l, caps.readdir (prebuildsDirOf caps directory) = some l →
         l.filter (fun f => endsWithT f (str ".node")) = [])) ∧
    (resolveNodeGypBuild caps directory =
      match tryPrebuilds caps directory with
      | some p => some p
      | none => tryBuildRelease caps directory) ∧
    (caps.fsExists (prebuildsDirOf caps directory) = false →
     caps.fsExists (buildReleaseDirOf directory) = false →
     resolveNodeGypBuild caps directory = none) := by
  have hPre : ∀ l f0 rest,
      caps.fsExists (prebuildsDirOf caps directory) = true →
      caps.readdir (prebuildsDirOf caps directory) = some l →
      l.filter (fun f => endsWithT f (str ".node")) = f0 :: rest →
      tryPrebuilds caps directory =
        some (pjoin (prebuildsDirOf caps directory)
          (((f0 :: rest).find? (fun f => includesT f (str "napi"))).getD f0)) := by
    intro l f0 rest hex hl hfil
    have h1 := selected_mem (fun f => includesT f (str "napi")) f0 rest
    have hsell : (((f0 :: rest).find? (fun f => includesT f (str "napi"))).getD f0) ∈
        l.filter (fun f => endsWithT f (str ".node")) := by
      rw [hfil]
      exact h1
    have hsel : caps.fsExists
        (pjoin (prebuildsDirOf caps directory)
          (((f0 :: rest).find? (fun f => includesT f (str "napi"))).getD f0)) = true := by
      apply hmem
      rw [hl]
      exact List.mem_of_mem_filter hsell
    unfold tryPrebuilds
    simp [hex, hl, hfil, hsel]
  refine ⟨?_, ⟨?_, ?_⟩, rfl, ?_⟩
  · intro l f0 rest hex hl hfil
    constructor
    · unfold resolveNodeGypBuild
      rw [hPre l f0 rest hex hl hfil]
    · intro hany
      obtain ⟨x, hx, hpx⟩ := List.any_eq_true.mp hany
      have hss : ((f0 :: rest).find? (fun f => includesT f (str "napi"))).isSome := by
        rw [List.find?_isSome]
        exact ⟨x, hx, hpx⟩
      obtain ⟨y, hy⟩ := Option.isSome_iff_exists.mp hss
      rw [hy]
      simpa using List.find?_some hy
  · intro h
    by_cases hex : caps.fsExists (prebuildsDirOf caps directory) = true
    · obtain ⟨l, hl⟩ := Option.isSome_iff_exists.mp (hread hex)
      cases hfil : l.filter (fun f => endsWithT f (str ".node")) with
      | nil =>
        right
        intro l' hl'
        rw [hl] at hl'
        cases hl'
        exact hfil
      | cons f0 rest =>
        rw [hPre l f0 rest hex hl hfil] at h
        cases h
    · left
      simpa using hex
  · rintro (hex | hall)
    · unfold tryPrebuilds
      simp [hex]
    · by_cases hex : caps.fsExists (prebuildsDirOf caps directory) = true
      · cases hrd : caps.readdir (prebuildsDirOf caps directory) with
        | none =>
          unfold tryPrebuilds
          simp [hex, hrd]
        | some l =>
          have hfil := hall l hrd
          unfold tryPrebuilds
          simp [hex, hrd, hfil]
      · unfold tryPrebuilds
        simp [hex]
  · intro h1 h2
    unfold resolveNodeGypBuild tryPrebuilds tryBuildRelease
    simp [h1, h2]

/-- Empty filesystem fixture. -/
def trivialCaps : SysCaps :=
  { fsExists := fun _ => false
    readdir := fun _ => none
    readFile := fun _ => []
    pkgType := fun _ => none
    pkgMain := fun _ => none
    md5hex := fun _ => []
    platform := str "linux"
    arch := str "x64" }

/-- Fixture for C8: the platform directory holds an ABI-specific binary
and a `napi` one. -/
def capsW : SysCaps :=
  { trivialCaps with
    fsExists := fun p =>
      p == str "/w/prebuilds/linux-x64" ||
      p == str "/w/prebuilds/linux-x64/x.abi102.node" ||
      p == str "/w/prebuilds/linux-x64/y.napi.node"
    readdir := fun p =>
      if p == str "/w/prebuilds/linux-x64" then
        some [str "x.abi102.node", str "y.napi.node"]
      else none }

/-- Witness for C8: both hypotheses hold on `capsW`, and the resolver
prefers the `napi` binary over the ABI-specific one. -/
theorem resolveNodeGypBuild_spec_witness :
    ((capsW.fsExists (prebuildsDirOf capsW (str "/w")) = true →
       (capsW.readdir (prebuildsDirOf capsW (str "/w"))).isSome = true) ∧
     (∀ f ∈ (capsW.readdir (prebuildsDirOf capsW (str "/w"))).getD [],
       capsW.fsExists (pjoin (prebuildsDirOf capsW (str "/w")) f) = true)) ∧
    resolveNodeGypBuild capsW (str "/w") =
      some (str "/w/prebuilds/linux-x64/y.napi.node") :=
  ⟨⟨by decide, by decide⟩,
   ((resolveNodeGypBuild_spec capsW (str "/w") (by decide) (by decide)).1
      [str "x.abi102.node", str "y.napi.node"] (str "x.abi102.node")
      [str "y.napi.node"] (by decide) (by decide) (by decide)).1.trans (by decide)⟩

/-! ## C6 — module-format detection precedence -/

theorem lweight_append (a b : List Jast) :
    lweight (a ++ b) = lweight a + lweight b := by
  induction a with
  | nil => simp [lweight]
  | cons n l ih => simp [lweight, ih]; omega

theorem jsize_pos (n : Jast) : 1 ≤ jsize n := by
  cases n with
  | jdeclarator a b c d =>
    rw [jsize.eq_def]
    cases d <;> simp <;> omega
  | jprogram body => rw [jsize]; omega
  | jexprStmt a b c => rw [jsize]; omega
  | jident a b c => rw [jsize]
  | jstrLit a b c => rw [jsize]
  | jnumLit a b c => rw [jsize]
  | jmetaProp a b c d => rw [jsize]
  | jcall a b c d => rw [jsize]; omega
  | jmember a b c d => rw [jsize]; omega
  | jvarDecl a b c => rw [jsize]; omega
  | jimport a b c d => rw [jsize]
  | jexportDecl a b c => rw [jsize]; omega

theorem lweight_toList : ∀ l : JastList, lweight l.toList = jsizeL l
  | .nil => by simp [JastList.toList, lweight, jsizeL]
  | .cons n l => by
    simp [JastList.toList, lweight, jsizeL, lweight_toList l]

theorem lweight_children_lt (n : Jast) : lweight (nodeChildren n) < jsize n := by
  cases n with
  | jprogram body => simp [nodeChildren, jsize, lweight_toList]
  | jexprStmt s e ex => simp only [nodeChildren, jsize, lweight]; omega
  | jident s e nm => simp only [nodeChildren, jsize, lweight]; omega
  | jstrLit s e v => simp only [nodeChildren, jsize, lweight]; omega
  | jnumLit s e v => simp only [nodeChildren, jsize, lweight]; omega
  | jmetaProp s e m p => simp only [nodeChildren, jsize, lweight]; omega
  | jcall s e callee args =>
    simp only [nodeChildren, jsize, lweight, lweight_toList]
    omega
  | jmember s e obj prop => simp only [nodeChildren, jsize, lweight]; omega
  | jvarDecl s e decls =>
    simp only [nodeChildren, jsize, lweight, lweight_toList]
    omega
  | jdeclarator s e idn init? =>
    rw [jsize.eq_def]
    cases init? <;>
      simp [nodeChildren, lweight, Option.toList]
  | jimport s e specs src => simp only [nodeChildren, jsize, lweight]; omega
  | jexportDecl s e body =>
    simp only [nodeChildren, jsize, lweight, lweight_toList]
    omega

theorem foldl_preserves_isES {α : Type} (f : WalkSt → α → WalkSt)
    (hf : ∀ st a, (f st a).isESModule = st.isESModule) :
    ∀ (l : List α) (st : WalkSt), (l.foldl f st).isESModule = st.isESModule := by
  intro l
  induction l with
  | nil => intro st; rfl
  | cons a l ih => intro st; rw [List.foldl_cons, ih, hf]

theorem processNodeFileM_isES (caps : SysCaps) (opts : PluginOptions)
    (p : Text) (cs ce : Nat) (st : WalkSt) :
    (processNodeFileM caps opts p cs ce st).isESModule = st.isESModule := by
  simp [processNodeFileM]

theorem rewriteLiteral_isES (caps : SysCaps) (opts : PluginOptions)
    (p filename : Text) (ls le : Nat) (dq : Bool) (st : WalkSt) :
    (rewriteLiteral caps opts p filename ls le dq st).isESModule = st.isESModule := by
  simp [rewriteLiteral]

theorem callChain_isES (caps : SysCaps) (opts : PluginOptions) (id : Text)
    (s e : Nat) (callee : Jast) (args : List Jast) (st : WalkSt) :
    (callChain caps opts id s e callee args st).isESModule = st.isESModule := by
  unfold callChain
  repeat' split
  all_goals
    simp [apply_ite WalkSt.isESModule, processNodeFileM_isES, rewriteLiteral_isES]

theorem joinRewrite_isES (caps : SysCaps) (opts : PluginOptions) (id : Text)
    (args : List Jast) (st : WalkSt) :
    (joinRewrite caps opts id args st).isESModule = st.isESModule := by
  unfold joinRewrite
  repeat' split
  all_goals
    simp [apply_ite WalkSt.isESModule, rewriteLiteral_isES]
  all_goals
    split <;> simp [apply_ite WalkSt.isESModule, rewriteLiteral_isES]

theorem npmRequireRewrite_isES (caps : SysCaps) (opts : PluginOptions) (id : Text)
    (callee : Jast) (args : List Jast) (st : WalkSt) :
    (npmRequireRewrite caps opts id callee args st).isESModule = st.isESModule := by
  unfold npmRequireRewrite
  repeat' split
  all_goals
    simp [apply_ite WalkSt.isESModule, rewriteLiteral_isES]

theorem handleCall_isES (caps : SysCaps) (opts : PluginOptions) (id : Text)
    (s e : Nat) (callee : Jast) (args : List Jast) (st : WalkSt) :
    (handleCall caps opts id s e callee args st).isESModule = st.isESModule := by
  unfold handleCall
  rw [npmRequireRewrite_isES]
  repeat' split
  all_goals
    simp [joinRewrite_isES, callChain_isES]

theorem handleImport_isES (s e : Nat) (specs : List JSpec) (src : Text) (st : WalkSt) :
    (handleImport s e specs src st).isESModule = st.isESModule := by
  unfold handleImport
  have hA : ∀ (st : WalkSt),
      (specs.foldl (fun acc sp =>
        match sp with
        | .jnamed imported localn =>
          if imported == str "createRequire" then
            { acc with createRequireLocalName := some localn,
                       hasCreateRequireImport := true }
          else acc
        | _ => acc) st).isESModule = st.isESModule := by
    intro st
    apply foldl_preserves_isES
    intro st' a
    cases a <;> simp <;> split <;> simp
  have hB : ∀ (st : WalkSt),
      (specs.foldl (fun acc sp =>
        match sp with
        | .jdefault localn => { acc with pathModuleVars := localn :: acc.pathModuleVars }
        | _ => acc) st).isESModule = st.isESModule := by
    intro st
    apply foldl_preserves_isES
    intro st' a
    cases a <;> simp
  have hC : ∀ (st : WalkSt),
      (specs.foldl (fun acc sp =>
        match sp with
        | .jnamed imported localn =>
          if imported == str "fileURLToPath" then
            { acc with fileURLToPathVars := localn :: acc.fileURLToPathVars }
          else acc
        | _ => acc) st).isESModule = st.isESModule := by
    intro st
    apply foldl_preserves_isES
    intro st' a
    cases a <;> simp <;> split <;> simp
  have hD : ∀ (st : WalkSt),
      (specs.foldl (fun acc sp =>
        match sp with
        | .jdefault localn => { acc with nodeGypBuildVars := localn :: acc.nodeGypBuildVars }
        | _ => acc) st).isESModule = st.isESModule := by
    intro st
    apply foldl_preserves_isES
    intro st' a
    cases a <;> simp
  have hE : ∀ (st : WalkSt),
      (specs.foldl (fun acc sp =>
        match sp with
        | .jdefault localn => { acc with bindingsVars := localn :: acc.bindingsVars }
        | _ => acc) st).isESModule = st.isESModule := by
    intro st
    apply foldl_preserves_isES
    intro st' a
    cases a <;> simp
  repeat' split
  all_goals simp only [hA, hB, hC, hD, hE]

theorem handleDeclarator_isES (st : WalkSt) (id : Text) (s e : Nat)
    (idn : Jast) (init? : Option Jast) :
    (handleDeclarator st id s e idn init?).isESModule = st.isESModule := by
  unfold handleDeclarator
  repeat' split
  all_goals simp [apply_ite WalkSt.isESModule]

theorem stepNode_isES (caps : SysCaps) (opts : PluginOptions) (id : Text)
    (n : Jast) (st : WalkSt) :
    (stepNode caps opts id n st).isESModule = (st.isESModule || isEsTop n) := by
  cases n with
  | jimport s e specs src =>
    simp [stepNode, handleImport_isES, isEsTop]
  | jexportDecl s e body => simp [stepNode, isEsTop]
  | jdeclarator s e idn init? =>
    simp [stepNode, handleDeclarator_isES, isEsTop]
  | jcall s e callee args =>
    simp [stepNode, handleCall_isES, isEsTop]
  | jprogram body => simp [stepNode, isEsTop]
  | jexprStmt a b c => simp [stepNode, isEsTop]
  | jident a b c => simp [stepNode, isEsTop]
  | jstrLit a b c => simp [stepNode, isEsTop]
  | jnumLit a b c => simp [stepNode, isEsTop]
  | jmetaProp a b c d => simp [stepNode, isEsTop]
  | jmember a b c d => simp [stepNode, isEsTop]
  | jvarDecl a b c => simp [stepNode, isEsTop]

theorem cleanupImports_isES (st : WalkSt) :
    (cleanupImports st).isESModule = st.isESModule := by
  unfold cleanupImports
  have hfold : ∀ (l : List (Nat × Nat)) (st : WalkSt),
      (l.foldl (fun acc p =>
        { acc with replacements := acc.replacements ++ [⟨p.1, p.2, []⟩],
                   modified := true }) st).isESModule = st.isESModule := by
    intro l
    apply foldl_preserves_isES
    intro st' a
    simp
  repeat' split
  all_goals simp [apply_ite WalkSt.isESModule, hfold]

theorem hasEsF_nil (fuel : Nat) : hasEsF fuel [] = false := by
  cases fuel <;> rfl

theorem walkF_isES (caps : SysCaps) (opts : PluginOptions) (id : Text) :
    ∀ (fuel : Nat) (l : List Jast) (st : WalkSt), lweight l ≤ fuel →
    (walkF caps opts id fuel l st).isESModule = (st.isESModule || hasEsF fuel l) := by
  intro fuel
  induction fuel with
  | zero =>
    intro l st _
    simp [walkF, hasEsF]
  | succ f ih =>
    intro l st h
    cases l with
    | nil => simp [walkF, hasEsF]
    | cons n rest =>
      have hb : lweight (nodeChildren n ++ rest) ≤ f := by
        have h1 := lweight_children_lt n
        have h2 : lweight (n :: rest) = jsize n + lweight rest := rfl
        rw [lweight_append]
        omega
      rw [walkF, ih _ _ hb, stepNode_isES, hasEsF, Bool.or_assoc]

theorem hasEsF_congr : ∀ (f1 f2 : Nat) (l : List Jast),
    lweight l ≤ f1 → lweight l ≤ f2 → hasEsF f1 l = hasEsF f2 l := by
  intro f1
  induction f1 with
  | zero =>
    intro f2 l h1 _
    cases l with
    | nil => simp [hasEsF_nil]
    | cons n rest =>
      exfalso
      have := jsize_pos n
      have h2 : lweight (n :: rest) = jsize n + lweight rest := rfl
      omega
  | succ f ih =>
    intro f2 l h1 h2
    cases l with
    | nil => simp [hasEsF_nil]
    | cons n rest =>
      cases f2 with
      | zero =>
        exfalso
        have := jsize_pos n
        have h3 : lweight (n :: rest) = jsize n + lweight rest := rfl
        omega
      | succ g =>
        have hb1 : lweight (nodeChildren n ++ rest) ≤ f := by
          have := lweight_children_lt n
          have h3 : lweight (n :: rest) = jsize n + lweight rest := rfl
          rw [lweight_append]
          omega
        have hb2 : lweight (nodeChildren n ++ rest) ≤ g := by
          have := lweight_children_lt n
          have h3 : lweight (n :: rest) = jsize n + lweight rest := rfl
          rw [lweight_append]
          omega
        rw [hasEsF, hasEsF, ih g (nodeChildren n ++ rest) hb1 hb2]

theorem detectModuleType_eq_chain (caps : SysCaps) (fileId code : Text) :
    detectModuleType caps fileId (some code) =
      (match suffixFormat fileId with
       | some b => b
       | none =>
         match lexicalFormat code with
         | some b => b
         | none =>
           match manifestFormat caps fileId with
           | some b => b
           | none => false) := by
  by_cases h1 : (endsWithT fileId (str ".mjs") || endsWithT fileId (str ".mts")) = true
  · simp [detectModuleType, suffixFormat, h1]
  · by_cases h2 : (endsWithT fileId (str ".cjs") || endsWithT fileId (str ".cts")) = true
    · simp [detectModuleType, suffixFormat, h1, h2]
    · simp [detectModuleType, suffixFormat, manifestFormat, h1, h2]

/-- C6 as amended: the module-format answer the pass actually uses (and
injects scaffolding with) follows this precedence: (1) presence of a
declarative import/export declaration anywhere in the parsed file forces
the ES-module answer, overriding even the host; then (2) the authoritative
host-supplied format; then (3) the filename-suffix convention; then
(4) the lexical heuristics over the raw text; then (5) the
nearest-ancestor manifest's module-type field; and CommonJS when nothing
matches.  (The claim had the host above the parsed syntax and the manifest
above the lexical heuristics.) -/
theorem moduleFormat_amended (caps : SysCaps) (opts : PluginOptions)
    (hostFmt : Option Bool) (reg : Registry) (code id : Text) (ast : Jast) :
    (runPass caps opts hostFmt reg code id ast).isESModule =
      amendedModuleFormat caps hostFmt id code ast := by
  unfold runPass
  rw [cleanupImports_isES,
      walkF_isES caps opts id (lweight [ast]) [ast] _ (le_refl _)]
  unfold amendedModuleFormat astHasEsDecl initWalkSt
  cases hE : hasEsF (lweight [ast]) [ast] with
  | true => simp [hE]
  | false =>
    cases hostFmt with
    | some b => simp [hE]
    | none => simp [hE, detectModuleType_eq_chain]

/-- Fixture for C6: an ancestor manifest declaring `"type": "module"`. -/
def capsM : SysCaps :=
  { trivialCaps with
    fsExists := fun p => p == str "/q/package.json"
    pkgType := fun p => if p == str "/q/package.json" then some true else none }

def astImp : Jast := .jprogram (jl [.jimport 0 11 [] (str "y")])

def astEmpty : Jast := .jprogram .nil

/-- Counterexample to C6 as stated.  First input: the host supplies the
CommonJS format but the parsed file contains an import declaration — the
code answers ES module, the claimed precedence (host first) answers
CommonJS.  Second input: the nearest manifest declares `"type": "module"`
but the raw text contains `require(` — the code answers CommonJS (lexical
heuristics run before the manifest walk), the claimed precedence (manifest
before lexical) answers ES module. -/
theorem moduleFormat_counterexample :
    (runPass trivialCaps {} (some false) ⟨[], []⟩ (str "import 'y';")
        (str "/p/a.js") astImp).isESModule ≠
      claimedModuleFormat trivialCaps (some false) (str "/p/a.js")
        (str "import 'y';") astImp ∧
    (runPass capsM {} none ⟨[], []⟩ (str "require('./x');")
        (str "/q/a.js") astEmpty).isESModule ≠
      claimedModuleFormat capsM none (str "/q/a.js")
        (str "require('./x');") astEmpty := by
  decide
